import Mathlib

/-!
Verification of the writing-editor rule pipeline.

Texts are shallowly embedded as `List Char` (`Txt`).  Every operation of the
pipeline (clarity rules, style rules, structure rules, the document
processor) is translated from the TypeScript sources into executable Lean
functions.  The JavaScript regular expressions used by the sources are
hand-compiled into explicit scanning functions: a `Matcher` inspects the
text at the current position (together with the previous character, which is
what the word-boundary assertion b needs) and returns the length of the
match plus the replacement text; `scanRepl` mirrors `String.replace` with a
global regex (leftmost, non-overlapping matches, replacement text never
rescanned, boundary context always taken from the original characters).
Character classes are the ASCII fragment of the JS classes, which covers all
vocabulary tables and all inputs considered here.  Rule methods that push a
`Change` onto their engine's `this.changes` accumulator are modelled as
functions returning the list of appended `Change` records next to the
rewritten text.
-/

set_option maxRecDepth 200000

abbrev Txt := List Char

def lit (s : String) : Txt := s.data

/-- ASCII fragment of the JS whitespace class s. -/
def isWsC (c : Char) : Bool :=
  c = ' ' || c = '\t' || c = '\n' || c = '\r' || c = '\x0b' || c = '\x0c'

/-- Characters that the JS dot `.` does not match (no s flag). -/
def isLineTermC (c : Char) : Bool :=
  c = '\n' || c = '\r' || c = '\u2028' || c = '\u2029'

/-- The JS word class w (ASCII). -/
def isWordC (c : Char) : Bool :=
  ('a' ≤ c && c ≤ 'z') || ('A' ≤ c && c ≤ 'Z') || ('0' ≤ c && c ≤ '9') || c = '_'

def isDigitC (c : Char) : Bool := '0' ≤ c && c ≤ '9'

def isVowelC (c : Char) : Bool :=
  c = 'a' || c = 'e' || c = 'i' || c = 'o' || c = 'u'

/-- ASCII `toLowerCase`. -/
def lowerC (c : Char) : Char :=
  if 'A' ≤ c && c ≤ 'Z' then Char.ofNat (c.toNat + 32) else c

/-- ASCII `toUpperCase`. -/
def upperC (c : Char) : Char :=
  if 'a' ≤ c && c ≤ 'z' then Char.ofNat (c.toNat - 32) else c

def lowerT (l : Txt) : Txt := l.map lowerC

/-- JS `String.prototype.trim` (ASCII whitespace). -/
def trimT (l : Txt) : Txt :=
  ((l.dropWhile isWsC).reverse.dropWhile isWsC).reverse

/-- `charAt(0).toUpperCase() + slice(1)`. -/
def upperFirst : Txt → Txt
  | [] => []
  | c :: cs => upperC c :: cs

def joinWith (sep : Txt) : List Txt → Txt
  | [] => []
  | [x] => x
  | x :: xs => x ++ sep ++ joinWith sep xs

/-- `Array.prototype.join(" ")`. -/
def joinSp (l : List Txt) : Txt := joinWith [' '] l

def natTxt (n : Nat) : Txt := (Nat.repr n).data

/-- If `pre` is a (case-sensitive) prefix of `l`, return the rest of `l`. -/
def isPrefixCS : Txt → Txt → Option Txt
  | [], l => some l
  | _, [] => none
  | a :: as, b :: bs => if a = b then isPrefixCS as bs else none

/-- If `pre` is a case-insensitive prefix of `l`, return the rest of `l`. -/
def isPrefixCI : Txt → Txt → Option Txt
  | [], l => some l
  | _, [] => none
  | a :: as, b :: bs => if lowerC a = lowerC b then isPrefixCI as bs else none

/-- JS `String.prototype.includes` (case-sensitive substring). -/
def containsLit : Txt → Txt → Bool
  | [], needle => needle.isEmpty
  | hay@(_ :: t), needle => (isPrefixCS needle hay).isSome || containsLit t needle

/-- Case-insensitive substring test (a `/lit/i.test`). -/
def containsCI : Txt → Txt → Bool
  | [], needle => needle.isEmpty
  | hay@(_ :: t), needle => (isPrefixCI needle hay).isSome || containsCI t needle

def endsWithT (l suf : Txt) : Bool := (isPrefixCS suf.reverse l.reverse).isSome

def endsWithCI (l suf : Txt) : Bool := (isPrefixCI suf.reverse l.reverse).isSome

def dropLastN (n : Nat) (l : Txt) : Txt := l.take (l.length - n)

/-- JS `text.split(/\s+/)`: pieces between maximal whitespace runs, keeping
the empty leading/trailing pieces exactly as `String.prototype.split` does.
Fueled so that the kernel can evaluate it; `jsSplitWs` supplies enough fuel. -/
def jsSplitWsF : Nat → Txt → List Txt
  | 0, l => [l]
  | fuel + 1, l =>
    let piece := l.takeWhile (fun c => !isWsC c)
    let rest := l.dropWhile (fun c => !isWsC c)
    match rest with
    | [] => [piece]
    | _ :: t => piece :: jsSplitWsF fuel (t.dropWhile isWsC)

def jsSplitWs (l : Txt) : List Txt := jsSplitWsF l.length l

def isTerminalC (c : Char) : Bool := c = '.' || c = '!' || c = '?'

/-- `text.match(/[^.!?]+[.!?]+/g)`: the sentences of a text.  Each match is a
maximal run of non-terminal characters followed by the maximal run of
terminal punctuation; leading terminal characters and a trailing run with no
terminator are skipped, exactly as the global regex does. -/
def splitSentF : Nat → Txt → List Txt
  | 0, _ => []
  | _ + 1, [] => []
  | fuel + 1, c :: cs =>
    if isTerminalC c then splitSentF fuel cs
    else
      let a := (c :: cs).takeWhile (fun x => !isTerminalC x)
      let r1 := (c :: cs).dropWhile (fun x => !isTerminalC x)
      match r1 with
      | [] => []
      | d :: ds =>
        let b := (d :: ds).takeWhile isTerminalC
        let r2 := (d :: ds).dropWhile isTerminalC
        (a ++ b) :: splitSentF fuel r2

def splitSentences (l : Txt) : List Txt := splitSentF l.length l

/-- A compiled regex: given the previous original character (for the
word-boundary assertion) and the text at the current position, return the
number of characters matched and the replacement text. -/
abbrev Matcher := Option Char → Txt → Option (Nat × Txt)

def prevIsWord : Option Char → Bool
  | none => false
  | some c => isWordC c

def nextNonWord : Txt → Bool
  | [] => true
  | c :: _ => !isWordC c

/-- `String.prototype.replace` with a global regex: scan left to right, at
each position try the matcher; on a match emit the replacement and resume
after the matched span (the boundary context of a later match is the
original character before it). -/
def scanReplF (m : Matcher) : Nat → Option Char → Txt → Txt
  | 0, _, l => l
  | _ + 1, _, [] => []
  | fuel + 1, prev, c :: cs =>
    match m prev (c :: cs) with
    | some (n, r) => r ++ scanReplF m fuel (some ((c :: cs).getD (n - 1) c)) (cs.drop (n - 1))
    | none => c :: scanReplF m fuel (some c) cs

def scanRepl (m : Matcher) (l : Txt) : Txt := scanReplF m l.length none l

/-- `regex.test`: does the matcher fire anywhere in the text? -/
def hasMatchF (m : Matcher) : Nat → Option Char → Txt → Bool
  | 0, _, _ => false
  | _ + 1, _, [] => false
  | fuel + 1, prev, c :: cs => (m prev (c :: cs)).isSome || hasMatchF m fuel (some c) cs

def hasMatch (m : Matcher) (l : Txt) : Bool := hasMatchF m l.length none l

/-- Number of (non-overlapping, leftmost) matches, as `text.match(re).length`. -/
def countMatchesF (m : Matcher) : Nat → Option Char → Txt → Nat
  | 0, _, _ => 0
  | _ + 1, _, [] => 0
  | fuel + 1, prev, c :: cs =>
    match m prev (c :: cs) with
    | some (n, _) => 1 + countMatchesF m fuel (some ((c :: cs).getD (n - 1) c)) (cs.drop (n - 1))
    | none => countMatchesF m fuel (some c) cs

def countMatches (m : Matcher) (l : Txt) : Nat := countMatchesF m l.length none l

/-- Matcher for `/\bterm\b/gi` with a literal `term` that starts and ends in
a word character (true of every table entry in the sources). -/
def wbMatcher (term repl : Txt) : Matcher := fun prev l =>
  if prevIsWord prev then none
  else match isPrefixCI term l with
    | none => none
    | some rest => if nextNonWord rest then some (term.length, repl) else none

/-- Matcher for a bare `/lit/gi` (no word boundaries). -/
def litCIM (term repl : Txt) : Matcher := fun _ l =>
  match isPrefixCI term l with
  | none => none
  | some _ => some (term.length, repl)

/-- One sequential replacement pass, recording whether it changed the text:
the `hasChanges` idiom of the sources
(`const before = result; result = result.replace(...); if (before !== result) hasChanges = true`). -/
def runStep (acc : Txt × Bool) (f : Txt → Txt) : Txt × Bool :=
  let r := f acc.1
  (r, acc.2 || !(decide (r = acc.1)))

def runSteps (steps : List (Txt → Txt)) (t : Txt) : Txt × Bool :=
  steps.foldl runStep (t, false)

/-- Word-boundary dictionary passes, in table order. -/
def wbSteps (entries : List (Txt × Txt)) : List (Txt → Txt) :=
  entries.map (fun e => scanRepl (wbMatcher e.1 e.2))

/-- `Array.prototype.splice(idx, 0, x)` (the index is clamped to the length). -/
def spliceInsert {α : Type} (idx : Nat) (x : α) (l : List α) : List α :=
  l.take idx ++ x :: l.drop idx

/-- `String.prototype.split` with a (capture-free) regex given by a
position matcher returning the match length. -/
def splitAtF (m : Txt → Option Nat) : Nat → Txt → Txt → List Txt
  | 0, acc, l => [acc.reverse ++ l]
  | _ + 1, acc, [] => [acc.reverse]
  | fuel + 1, acc, l@(c :: cs) =>
    match m l with
    | some n => acc.reverse :: splitAtF m fuel [] (l.drop n)
    | none => splitAtF m fuel (c :: acc) cs

def jsSplitAt (m : Txt → Option Nat) (l : Txt) : List Txt := splitAtF m l.length [] l

/-- `String.prototype.split` with a regex holding one capture group: the
captured separators are interleaved with the pieces, as in JS. -/
def splitCapF (m : Txt → Option (Nat × Txt)) : Nat → Txt → Txt → List Txt
  | 0, acc, l => [acc.reverse ++ l]
  | _ + 1, acc, [] => [acc.reverse]
  | fuel + 1, acc, l@(c :: cs) =>
    match m l with
    | some (n, tok) => acc.reverse :: tok :: splitCapF m fuel [] (l.drop n)
    | none => splitCapF m fuel (c :: acc) cs

def jsSplitCap (m : Txt → Option (Nat × Txt)) (l : Txt) : List Txt := splitCapF m l.length [] l

def hasSimpleMatchF (m : Txt → Option Nat) : Nat → Txt → Bool
  | 0, _ => false
  | _ + 1, [] => false
  | fuel + 1, l@(_ :: cs) => (m l).isSome || hasSimpleMatchF m fuel cs

def hasSimpleMatch (m : Txt → Option Nat) (l : Txt) : Bool := hasSimpleMatchF m l.length l

def wordRunSplit (l : Txt) : Txt × Txt := (l.takeWhile isWordC, l.dropWhile isWordC)

def wsRunSplit (l : Txt) : Txt × Txt := (l.takeWhile isWsC, l.dropWhile isWsC)

/-- Ordered alternation of case-insensitive literals (used where the
alternatives cannot both prefix-match, so no backtracking is lost). -/
def matchAltCI : List Txt → Txt → Option (Nat × Txt)
  | [], _ => none
  | a :: rest, l =>
    match isPrefixCI a l with
    | some r => some (a.length, r)
    | none => matchAltCI rest l

/-- On the REVERSED word run: length of the longest prefix of the original
run that ends in "ed" (case-insensitively) and has length at least 3 —
the greedy `(\w+ed)` capture. -/
def longestEdPrefixAux : Txt → Option Nat
  | [] => none
  | l@(_ :: t) =>
    match isPrefixCI (lit "de") l with
    | some _ => if 3 ≤ l.length then some l.length else none
    | none => longestEdPrefixAux t

/-- Greedy `(\w+ing)` capture on the reversed word run (length at least 4). -/
def longestIngPrefixAux : Txt → Option Nat
  | [] => none
  | l@(_ :: t) =>
    match isPrefixCI (lit "gni") l with
    | some _ => if 4 ≤ l.length then some l.length else none
    | none => longestIngPrefixAux t

/-- The `(\w+ed|en)` capture of the third passive pattern applied to the
word run `v`: a greedy "…ed" prefix of length at least 3, else the literal
"en" at the start of the run. -/
def edPrefixOrEn (v : Txt) : Option Txt :=
  match longestEdPrefixAux v.reverse with
  | some k => some (v.take k)
  | none =>
    match isPrefixCI (lit "en") v with
    | some _ => some (v.take 2)
    | none => none

/-- Lazy `(.+?)(?:\.|,|$)` after the first (unconditionally consumed)
character: actor text, the terminator if one was consumed, and the rest. -/
def actorScanAux : Txt → Option (Txt × Option Char × Txt)
  | [] => some ([], none, [])
  | c :: cs =>
    if c = '.' || c = ',' then some ([], some c, cs)
    else if isLineTermC c then none
    else match actorScanAux cs with
      | some (a, t, r) => some (c :: a, t, r)
      | none => none

def actorScan : Txt → Option (Txt × Option Char × Txt)
  | [] => none
  | c :: cs =>
    if isLineTermC c then none
    else match actorScanAux cs with
      | some (a, t, r) => some (c :: a, t, r)
      | none => none

/- Change records and sections, from `src/unnamed/part_001` (`types.ts`).
The `structure` category is spelled `struct` because `structure` is a Lean
keyword. -/

inductive CType where
  | clarity
  | style
  | struct
  | vocabulary
deriving DecidableEq

structure Change where
  rule : Txt
  ctype : CType
  before : Txt
  after : Txt
  reason : Txt
deriving DecidableEq

structure SectionM where
  title : Txt
  content : Txt
  edited : Option Txt
  changes : List Change
deriving DecidableEq

structure ValidationResult where
  valid : Bool
  issues : Option (List Txt)
  fixedText : Txt
  changes : List Change
deriving DecidableEq

/-! ## ClarityRules (`src/unnamed/part_000`, `clarity.rules.ts`) -/

namespace ClarityRules

/-- The irregular-verb table of `getActiveVerb` (case-sensitive keys). -/
def irregularVerbs : List (Txt × Txt) :=
  [(lit "written", lit "wrote"), (lit "driven", lit "drove"), (lit "given", lit "gave"),
   (lit "taken", lit "took"), (lit "chosen", lit "chose"), (lit "seen", lit "saw"),
   (lit "done", lit "did"), (lit "known", lit "knew"), (lit "shown", lit "showed"),
   (lit "proven", lit "proved"), (lit "broken", lit "broke"), (lit "spoken", lit "spoke"),
   (lit "eaten", lit "ate"), (lit "beaten", lit "beat"), (lit "forgotten", lit "forgot"),
   (lit "frozen", lit "froze"), (lit "gotten", lit "got"), (lit "hidden", lit "hid"),
   (lit "ridden", lit "rode"), (lit "risen", lit "rose"), (lit "stolen", lit "stole"),
   (lit "worn", lit "wore")]

def getActiveVerb (pastParticiple : Txt) : Txt :=
  match irregularVerbs.find? (fun e => decide (e.1 = pastParticiple)) with
  | some e => e.2
  | none =>
    if endsWithT pastParticiple (lit "ed") then
      let base := dropLastN 2 pastParticiple
      if endsWithT pastParticiple (lit "ied") then dropLastN 3 pastParticiple ++ ['y']
      else if endsWithT pastParticiple (lit "ted") || endsWithT pastParticiple (lit "ded") then base
      else base
    else pastParticiple

/-- `sentence.match(/that\s+(.+)/i)` inside `restructureItIs`: the rest after
the first "that" followed by whitespace, or failure. -/
def findThatRest : Txt → Option Txt
  | [] => none
  | l@(_ :: t) =>
    match isPrefixCI (lit "that") l with
    | some r1 =>
      let ws := r1.takeWhile isWsC
      let r2 := r1.dropWhile isWsC
      if ws.isEmpty then findThatRest t
      else
        let cap := r2.takeWhile (fun c => !isLineTermC c)
        if cap.isEmpty then findThatRest t else some cap
    | none => findThatRest t

def restructureItIs (span : Txt) : Txt :=
  match findThatRest span with
  | some rest => upperFirst rest
  | none => span

/-- The `(\w+ed|en|t)` capture followed by a mandatory `\s`: the whole word
run must end in "ed" (length at least 3) or be exactly "en" or "t". -/
def passiveVerbOk (v : Txt) : Bool :=
  (endsWithCI v (lit "ed") && decide (3 ≤ v.length)) ||
  decide (lowerT v = lit "en") || decide (lowerT v = lit "t")

/-- `/(\w+)\s+(?:was|were)\s+(\w+ed|en|t)\s+by\s+(.+?)(?:\.|,|$)/gi`. -/
def passive1M : Matcher := fun _ l =>
  let s := wordRunSplit l
  if s.1.isEmpty then none else
  let w1 := wsRunSplit s.2
  if w1.1.isEmpty then none else
  match matchAltCI [lit "was", lit "were"] w1.2 with
  | none => none
  | some (n1, r1) =>
    let w2 := wsRunSplit r1
    if w2.1.isEmpty then none else
    let v := wordRunSplit w2.2
    if !passiveVerbOk v.1 then none else
    let w3 := wsRunSplit v.2
    if w3.1.isEmpty then none else
    match isPrefixCI (lit "by") w3.2 with
    | none => none
    | some r2 =>
      let w4 := wsRunSplit r2
      if w4.1.isEmpty then none else
      match actorScan w4.2 with
      | none => none
      | some (actor, term, _) =>
        let consumed := s.1.length + w1.1.length + n1 + w2.1.length + v.1.length +
          w3.1.length + 2 + w4.1.length + actor.length +
          (match term with | some _ => 1 | none => 0)
        let lastC :=
          match term with
          | some c => c
          | none => actor.getLastD ' '
        some (consumed, actor ++ ' ' :: getActiveVerb v.1 ++ ' ' :: s.1 ++ [lastC])

/-- `/it\s+(?:is|was)\s+(\w+ed)\s+that/gi` (its transform rebuilds the text
from the matched span via `restructureItIs`). -/
def passive2M : Matcher := fun _ l =>
  match isPrefixCI (lit "it") l with
  | none => none
  | some r0 =>
    let w1 := wsRunSplit r0
    if w1.1.isEmpty then none else
    match matchAltCI [lit "is", lit "was"] w1.2 with
    | none => none
    | some (n1, r1) =>
      let w2 := wsRunSplit r1
      if w2.1.isEmpty then none else
      let v := wordRunSplit w2.2
      if !(endsWithCI v.1 (lit "ed") && decide (3 ≤ v.1.length)) then none else
      let w3 := wsRunSplit v.2
      if w3.1.isEmpty then none else
      match isPrefixCI (lit "that") w3.2 with
      | none => none
      | some _ =>
        let consumed := 2 + w1.1.length + n1 + w2.1.length + v.1.length + w3.1.length + 4
        some (consumed, restructureItIs (l.take consumed))

/-- `/(\w+)\s+(?:has|have)\s+been\s+(\w+ed|en)\s*/gi`. -/
def passive3M : Matcher := fun _ l =>
  let s := wordRunSplit l
  if s.1.isEmpty then none else
  let w1 := wsRunSplit s.2
  if w1.1.isEmpty then none else
  match matchAltCI [lit "has", lit "have"] w1.2 with
  | none => none
  | some (n1, r1) =>
    let w2 := wsRunSplit r1
    if w2.1.isEmpty then none else
    match isPrefixCI (lit "been") w2.2 with
    | none => none
    | some r2 =>
      let w3 := wsRunSplit r2
      if w3.1.isEmpty then none else
      let v := wordRunSplit w3.2
      match edPrefixOrEn v.1 with
      | none => none
      | some verb =>
        let rest := w3.2.drop verb.length
        let trailWs := rest.takeWhile isWsC
        let consumed := s.1.length + w1.1.length + n1 + w2.1.length + 4 +
          w3.1.length + verb.length + trailWs.length
        some (consumed, s.1 ++ ' ' :: getActiveVerb verb)

def passiveSteps : List (Txt → Txt) :=
  [scanRepl passive1M, scanRepl passive2M, scanRepl passive3M]

def fixPassiveVoice (sentence : Txt) : Txt × List Change :=
  let p := runSteps passiveSteps sentence
  (p.1,
   if p.2 then
     [Change.mk (lit "Passive Voice") CType.clarity sentence p.1
       (lit "Converted passive voice to active voice for clearer, more direct writing")]
   else [])

/-- `/[.!?]$/.test(sentence)`. -/
def endsTerminal (l : Txt) : Bool :=
  match l.getLast? with
  | some c => isTerminalC c
  | none => false

def ensureCompleteSentence (fragment : Txt) : Txt :=
  let s := trimT fragment
  if s.isEmpty then []
  else
    let s2 := upperFirst s
    if endsTerminal s2 then s2 else s2 ++ ['.']

/-- The conjunction table of `intelligentSplit` (the `replacement` fields of
the source are dead code: `intelligentSplit` never uses them). -/
inductive Conj where
  | commaWord (w : Txt)
  | semi
deriving DecidableEq

/-- Position matcher of `/(,\s*WORD\s+)/i` resp. `/;\s*/g`. -/
def conjMatcherM : Conj → Txt → Option Nat
  | Conj.commaWord w, l =>
    match l with
    | c :: r0 =>
      if c = ',' then
        let ws1 := r0.takeWhile isWsC
        let r1 := r0.dropWhile isWsC
        match isPrefixCI w r1 with
        | none => none
        | some r2 =>
          let ws2 := r2.takeWhile isWsC
          if ws2.isEmpty then none else some (1 + ws1.length + w.length + ws2.length)
      else none
    | [] => none
  | Conj.semi, l =>
    match l with
    | c :: r0 => if c = ';' then some (1 + (r0.takeWhile isWsC).length) else none
    | [] => none

def conjList : List Conj :=
  [Conj.commaWord (lit "and"), Conj.commaWord (lit "but"), Conj.semi,
   Conj.commaWord (lit "which"), Conj.commaWord (lit "while")]

def conjTest (c : Conj) (l : Txt) : Bool := hasSimpleMatch (conjMatcherM c) l

/-- The loop of `intelligentSplit`: the first conjunction whose pattern
tests true, splits the sentence in exactly two parts, and gives both parts
at least 5 `split(/\s+/)` tokens wins. -/
def findSplit : List Conj → Txt → Option (Txt × Txt)
  | [], _ => none
  | c :: rest, s =>
    if conjTest c s then
      match jsSplitAt (conjMatcherM c) s with
      | [p1, p2] =>
        if 5 ≤ (jsSplitWs p1).length ∧ 5 ≤ (jsSplitWs p2).length then some (p1, p2)
        else findSplit rest s
      | _ => findSplit rest s
    else findSplit rest s

def intelligentSplit (sentence : Txt) : List Txt :=
  match findSplit conjList sentence with
  | some p => [ensureCompleteSentence p.1, ensureCompleteSentence p.2]
  | none => [sentence]

def splitReason (n : Nat) : Txt :=
  lit "Split sentence with " ++ natTxt n ++ lit " words into shorter, clearer sentences"

def splitLongSentences (text : Txt) : Txt × List Change :=
  let sentences :=
    match splitSentences text with
    | [] => [text]
    | l => l
  let r := sentences.foldl
    (fun (acc : List Txt × List Change) sentence =>
      let trimmed := trimT sentence
      let wordCount := (jsSplitWs trimmed).length
      if 25 < wordCount then
        let split := intelligentSplit trimmed
        let cs :=
          if 1 < split.length then
            [Change.mk (lit "Long Sentence") CType.clarity trimmed (joinSp split)
              (splitReason wordCount)]
          else []
        (acc.1 ++ split, acc.2 ++ cs)
      else (acc.1 ++ [trimmed], acc.2))
    ([], [])
  (joinSp r.1, r.2)

def clauseIndicators : List Txt :=
  [lit "which", lit "that", lit "who", lit "whom", lit "whose", lit "where",
   lit "when", lit "while", lit "although", lit "because", lit "since",
   lit "if", lit "unless", lit "after", lit "before", lit "as"]

/-- Ordered word-boundary alternation `\b(w1|w2|…)\b`: an alternative that
prefix-matches but fails the trailing boundary lets the next one try. -/
def wbAltTry : List Txt → Txt → Option Nat
  | [], _ => none
  | a :: rest, l =>
    match isPrefixCI a l with
    | some r => if nextNonWord r then some a.length else wbAltTry rest l
    | none => wbAltTry rest l

def wbAltMatcher (alts : List Txt) : Matcher := fun prev l =>
  if prevIsWord prev then none
  else match wbAltTry alts l with
    | some n => some (n, [])
    | none => none

def countClauses (sentence : Txt) : Nat :=
  countMatches (wbAltMatcher clauseIndicators) sentence + 1

def connectorWords : List Txt :=
  [lit "and", lit "but", lit "however", lit "moreover", lit "furthermore",
   lit "additionally", lit "also"]

def connTry : List Txt → Txt → Option Txt
  | [], _ => none
  | a :: rest, l =>
    match isPrefixCI a l with
    | some _ => some (l.take a.length)
    | none => connTry rest l

/-- `/\s+(and|but|however|moreover|furthermore|additionally|also)\s+/gi`,
capturing the connector as matched. -/
def connMatcher (l : Txt) : Option (Nat × Txt) :=
  let ws1 := l.takeWhile isWsC
  if ws1.isEmpty then none else
  let r1 := l.dropWhile isWsC
  match connTry connectorWords r1 with
  | none => none
  | some w =>
    let r2 := r1.drop w.length
    let ws2 := r2.takeWhile isWsC
    if ws2.isEmpty then none else some (ws1.length + w.length + ws2.length, w)

def separateMultipleIdeas (sentence : Txt) : List Txt × List Change :=
  let clauses := countClauses sentence
  if clauses ≤ 2 then ([sentence], [])
  else
    let parts := (jsSplitCap connMatcher sentence).filter
      (fun part => !part.isEmpty && !(connectorWords.contains (lowerT part)))
    if 1 < parts.length then
      let separated := parts.map (fun part => ensureCompleteSentence (trimT part))
      (separated,
       [Change.mk (lit "Multiple Ideas") CType.clarity sentence (joinSp separated)
         (lit "Separated multiple ideas into individual sentences for clarity")])
    else ([sentence], [])

/-- The replacement dictionary of `simplifyLanguage`, in object order. -/
def simplifyEntries : List (Txt × Txt) :=
  [(lit "utilize", lit "use"), (lit "utilizes", lit "uses"),
   (lit "utilized", lit "used"), (lit "utilizing", lit "using"),
   (lit "implement", lit "use"), (lit "implements", lit "uses"),
   (lit "implemented", lit "used"), (lit "implementing", lit "using"),
   (lit "facilitate", lit "help"), (lit "facilitates", lit "helps"),
   (lit "facilitated", lit "helped"), (lit "demonstrate", lit "show"),
   (lit "demonstrates", lit "shows"), (lit "demonstrated", lit "showed"),
   (lit "approximately", lit "about"), (lit "subsequent", lit "next"),
   (lit "prior to", lit "before"), (lit "in order to", lit "to"),
   (lit "due to the fact that", lit "because"), (lit "in the event that", lit "if"),
   (lit "at this point in time", lit "now"),
   (lit "in light of the fact that", lit "because"),
   (lit "in spite of the fact that", lit "although"),
   (lit "for the purpose of", lit "to"), (lit "with regard to", lit "about"),
   (lit "with respect to", lit "about"), (lit "in terms of", lit "about"),
   (lit "on the basis of", lit "based on"),
   (lit "as a consequence of", lit "because of"),
   (lit "in conjunction with", lit "with"), (lit "in the vicinity of", lit "near"),
   (lit "a number of", lit "several"), (lit "the majority of", lit "most")]

def simplifyLanguage (text : Txt) : Txt × List Change :=
  let p := runSteps (wbSteps simplifyEntries) text
  (p.1,
   if p.2 then
     [Change.mk (lit "Simplified Language") CType.vocabulary text p.1
       (lit "Replaced elaborate vocabulary with simpler alternatives")]
   else [])

end ClarityRules

/-! ## StyleRules (`style.rules.ts`) -/

namespace StyleRules

/-- `result.replace(/\s+/g, ' ')`: each whitespace run becomes one space. -/
def collapseWsAux : Bool → Txt → Txt
  | _, [] => []
  | prevWs, c :: cs =>
    if isWsC c then
      if prevWs then collapseWsAux true cs else ' ' :: collapseWsAux true cs
    else c :: collapseWsAux false cs

def collapseWs (l : Txt) : Txt := collapseWsAux false l

def isPunct6 (c : Char) : Bool :=
  c = '.' || c = ',' || c = '!' || c = '?' || c = ';' || c = ':'

/-- `result.replace(/\s+([.,!?;:])/g, '$1')`. -/
def fixSpacePunctF : Nat → Txt → Txt
  | 0, l => l
  | _ + 1, [] => []
  | fuel + 1, c :: cs =>
    if isWsC c then
      let run := (c :: cs).takeWhile isWsC
      let rest := (c :: cs).dropWhile isWsC
      match rest with
      | p :: r => if isPunct6 p then p :: fixSpacePunctF fuel r else run ++ fixSpacePunctF fuel rest
      | [] => run
    else c :: fixSpacePunctF fuel cs

def fixSpacePunct (l : Txt) : Txt := fixSpacePunctF l.length l

/-- `result.replace(/^\s*[.,;]\s*/, '')` (anchored, first occurrence only;
a replacement happens only when one of `.,;` is actually present). -/
def stripLeadingPunct (l : Txt) : Txt :=
  let r1 := l.dropWhile isWsC
  match r1 with
  | c :: r2 => if c = '.' || c = ',' || c = ';' then r2.dropWhile isWsC else l
  | [] => l

/-- `result.replace(/\.\s*\./g, '.')`. -/
def collapseDoublePeriodF : Nat → Txt → Txt
  | 0, l => l
  | _ + 1, [] => []
  | fuel + 1, c :: cs =>
    if c = '.' then
      match cs.dropWhile isWsC with
      | d :: r =>
        if d = '.' then '.' :: collapseDoublePeriodF fuel r
        else '.' :: collapseDoublePeriodF fuel cs
      | [] => '.' :: collapseDoublePeriodF fuel cs
    else c :: collapseDoublePeriodF fuel cs

def collapseDoublePeriod (l : Txt) : Txt := collapseDoublePeriodF l.length l

/-- `result.replace(/([.,])\s*,/g, ',')` (the replacement is the literal
comma). -/
def fixCommaAfterPunctF : Nat → Txt → Txt
  | 0, l => l
  | _ + 1, [] => []
  | fuel + 1, c :: cs =>
    if c = '.' || c = ',' then
      match cs.dropWhile isWsC with
      | d :: r =>
        if d = ',' then ',' :: fixCommaAfterPunctF fuel r
        else c :: fixCommaAfterPunctF fuel cs
      | [] => c :: fixCommaAfterPunctF fuel cs
    else c :: fixCommaAfterPunctF fuel cs

def fixCommaAfterPunct (l : Txt) : Txt := fixCommaAfterPunctF l.length l

/-- The forbidden-vocabulary list of `cleanVocabulary`, in array order. -/
def forbiddenTerms : List Txt :=
  [lit "paradigm", lit "framework", lit "thus", lit "therefore", lit "hence",
   lit "Note that", lit "It should be noted that", lit "It is worth noting that",
   lit "It is important to note that", lit "In this paper", lit "In this work",
   lit "In this study", lit "aforementioned", lit "hereby", lit "heretofore",
   lit "henceforth", lit "whilst", lit "amongst", lit "albeit"]

/-- The whitespace/punctuation cleanup performed by `cleanVocabulary` after
the removals (lines 39-41 of the source), in order. -/
def cleanNormalize (l : Txt) : Txt :=
  collapseDoublePeriod (stripLeadingPunct (fixSpacePunct (collapseWs l)))

def cleanVocabulary (text : Txt) : Txt × List Change :=
  let p := runSteps (forbiddenTerms.map (fun w => scanRepl (wbMatcher w []))) text
  let result := cleanNormalize p.1
  (result,
   if p.2 then
     [Change.mk (lit "Forbidden Vocabulary") CType.vocabulary text result
       (lit "Removed forbidden academic jargon and redundant phrases")]
   else [])

/-- `/\bwe\s+will\s+(\w+)/gi` with replacement `we ${verb}`. -/
def tense1M : Matcher := fun prev l =>
  if prevIsWord prev then none else
  match isPrefixCI (lit "we") l with
  | none => none
  | some r0 =>
    let w1 := wsRunSplit r0
    if w1.1.isEmpty then none else
    match isPrefixCI (lit "will") w1.2 with
    | none => none
    | some r1 =>
      let w2 := wsRunSplit r1
      if w2.1.isEmpty then none else
      let v := wordRunSplit w2.2
      if v.1.isEmpty then none else
      some (2 + w1.1.length + 4 + w2.1.length + v.1.length, lit "we " ++ v.1)

/-- `/\bwill\s+be\s+(\w+ing)/gi` with replacement `${verb}`. -/
def tense2M : Matcher := fun prev l =>
  if prevIsWord prev then none else
  match isPrefixCI (lit "will") l with
  | none => none
  | some r0 =>
    let w1 := wsRunSplit r0
    if w1.1.isEmpty then none else
    match isPrefixCI (lit "be") w1.2 with
    | none => none
    | some r1 =>
      let w2 := wsRunSplit r1
      if w2.1.isEmpty then none else
      let v := wordRunSplit w2.2
      match longestIngPrefixAux v.1.reverse with
      | none => none
      | some k => some (4 + w1.1.length + 2 + w2.1.length + k, v.1.take k)

/-- `/\bwill\s+(\w+)/gi`; the source returns `'is'` for the verb `'be'` and
otherwise appends `'s'` through two branches with identical bodies
(`verb.endsWith('e')` and the fallthrough both yield `verb + 's'`). -/
def tense3M : Matcher := fun prev l =>
  if prevIsWord prev then none else
  match isPrefixCI (lit "will") l with
  | none => none
  | some r0 =>
    let w1 := wsRunSplit r0
    if w1.1.isEmpty then none else
    let v := wordRunSplit w1.2
    if v.1.isEmpty then none else
    let repl :=
      if v.1 = lit "be" then lit "is"
      else if endsWithT v.1 (lit "e") then v.1 ++ ['s']
      else v.1 ++ ['s']
    some (4 + w1.1.length + v.1.length, repl)

/-- `/\bshall\s+(\w+)/gi` with replacement `${verb}`. -/
def tense4M : Matcher := fun prev l =>
  if prevIsWord prev then none else
  match isPrefixCI (lit "shall") l with
  | none => none
  | some r0 =>
    let w1 := wsRunSplit r0
    if w1.1.isEmpty then none else
    let v := wordRunSplit w1.2
    if v.1.isEmpty then none else
    some (5 + w1.1.length + v.1.length, v.1)

/-- `/\bis\s+going\s+to\s+(\w+)/gi` with replacement `${verb}s`. -/
def tense5M : Matcher := fun prev l =>
  if prevIsWord prev then none else
  match isPrefixCI (lit "is") l with
  | none => none
  | some r0 =>
    let w1 := wsRunSplit r0
    if w1.1.isEmpty then none else
    match isPrefixCI (lit "going") w1.2 with
    | none => none
    | some r1 =>
      let w2 := wsRunSplit r1
      if w2.1.isEmpty then none else
      match isPrefixCI (lit "to") w2.2 with
      | none => none
      | some r2 =>
        let w3 := wsRunSplit r2
        if w3.1.isEmpty then none else
        let v := wordRunSplit w3.2
        if v.1.isEmpty then none else
        some (2 + w1.1.length + 5 + w2.1.length + 2 + w3.1.length + v.1.length, v.1 ++ ['s'])

/-- `/\bare\s+going\s+to\s+(\w+)/gi` with replacement `${verb}`. -/
def tense6M : Matcher := fun prev l =>
  if prevIsWord prev then none else
  match isPrefixCI (lit "are") l with
  | none => none
  | some r0 =>
    let w1 := wsRunSplit r0
    if w1.1.isEmpty then none else
    match isPrefixCI (lit "going") w1.2 with
    | none => none
    | some r1 =>
      let w2 := wsRunSplit r1
      if w2.1.isEmpty then none else
      match isPrefixCI (lit "to") w2.2 with
      | none => none
      | some r2 =>
        let w3 := wsRunSplit r2
        if w3.1.isEmpty then none else
        let v := wordRunSplit w3.2
        if v.1.isEmpty then none else
        some (3 + w1.1.length + 5 + w2.1.length + 2 + w3.1.length + v.1.length, v.1)

def tenseSteps : List (Txt → Txt) :=
  [scanRepl tense1M, scanRepl tense2M, scanRepl tense3M,
   scanRepl tense4M, scanRepl tense5M, scanRepl tense6M]

def fixTense (text : Txt) : Txt × List Change :=
  let p := runSteps tenseSteps text
  (p.1,
   if p.2 then
     [Change.mk (lit "Tense Correction") CType.style text p.1
       (lit "Converted future tense to present tense for academic writing")]
   else [])

/-- `text.match(/\([^)]+\)/g)`: all parenthetical spans, in order. -/
def parenMatchesF : Nat → Txt → List Txt
  | 0, _ => []
  | _ + 1, [] => []
  | fuel + 1, c :: cs =>
    if c = '(' then
      let inner := cs.takeWhile (fun d => !(d = ')'))
      match cs.dropWhile (fun d => !(d = ')')) with
      | d :: r =>
        if d = ')' then
          if inner.isEmpty then parenMatchesF fuel cs
          else ('(' :: inner ++ [')']) :: parenMatchesF fuel r
        else parenMatchesF fuel cs
      | [] => parenMatchesF fuel cs
    else parenMatchesF fuel cs

def parenMatches (l : Txt) : List Txt := parenMatchesF l.length l

/-- Replacement chosen for one parenthetical, by trimmed content length. -/
def parenRepl (m : Txt) : Txt :=
  let content := trimT ((m.drop 1).dropLast)
  if 30 < content.length then '.' :: ' ' :: (content ++ ['.'])
  else if 10 < content.length then ',' :: ' ' :: (content ++ [','])
  else ' ' :: content

/-- `result.replace(matchString, repl)`: string search-value, so only the
first occurrence is replaced. -/
def firstReplaceF : Nat → Txt → Txt → Txt → Txt
  | 0, _, _, l => l
  | _ + 1, _, _, [] => []
  | fuel + 1, needle, repl, l@(c :: cs) =>
    match isPrefixCS needle l with
    | some rest => repl ++ rest
    | none => c :: firstReplaceF fuel needle repl cs

def firstReplace (needle repl l : Txt) : Txt := firstReplaceF l.length needle repl l

/-- `/\[\d+\]/g`. -/
def footnoteM : Matcher := fun _ l =>
  match l with
  | c :: r0 =>
    if c = '[' then
      let ds := r0.takeWhile isDigitC
      if ds.isEmpty then none else
      match r0.drop ds.length with
      | d :: _ => if d = ']' then some (1 + ds.length + 1, []) else none
      | [] => none
    else none
  | [] => none

/-- The four cleanup replacements of `removeParentheticals` (lines 139-142),
in order. -/
def parenNormalize (l : Txt) : Txt :=
  collapseDoublePeriod (fixCommaAfterPunct (fixSpacePunct (collapseWs l)))

def removeParentheticals (text : Txt) : Txt × List Change :=
  let ms := parenMatches text
  let r1 := ms.foldl (fun cur m => firstReplace m (parenRepl m) cur) text
  let r2 := scanRepl footnoteM r1
  let flag := !ms.isEmpty || !(decide (r2 = r1))
  let result := parenNormalize r2
  (result,
   if flag then
     [Change.mk (lit "Parentheticals Removed") CType.style text result
       (lit "Converted parenthetical content to regular text for better flow")]
   else [])

/-- The redundant-phrase dictionary of `removeRedundancy`, in object order. -/
def redundantEntries : List (Txt × Txt) :=
  [(lit "absolutely essential", lit "essential"),
   (lit "absolutely necessary", lit "necessary"),
   (lit "actual fact", lit "fact"), (lit "added bonus", lit "bonus"),
   (lit "advance planning", lit "planning"), (lit "advance warning", lit "warning"),
   (lit "all-time record", lit "record"),
   (lit "basic fundamentals", lit "fundamentals"),
   (lit "brief summary", lit "summary"), (lit "close proximity", lit "proximity"),
   (lit "combine together", lit "combine"),
   (lit "completely eliminate", lit "eliminate"),
   (lit "consensus of opinion", lit "consensus"), (lit "continue on", lit "continue"),
   (lit "each and every", lit "each"), (lit "end result", lit "result"),
   (lit "exactly the same", lit "the same"), (lit "final outcome", lit "outcome"),
   (lit "first and foremost", lit "first"), (lit "free gift", lit "gift"),
   (lit "future plans", lit "plans"), (lit "general consensus", lit "consensus"),
   (lit "joint collaboration", lit "collaboration"),
   (lit "major breakthrough", lit "breakthrough"), (lit "merge together", lit "merge"),
   (lit "mutual cooperation", lit "cooperation"), (lit "new innovation", lit "innovation"),
   (lit "null and void", lit "void"), (lit "past experience", lit "experience"),
   (lit "past history", lit "history"), (lit "period of time", lit "period"),
   (lit "personal opinion", lit "opinion"), (lit "plan ahead", lit "plan"),
   (lit "positive improvement", lit "improvement"),
   (lit "postpone until later", lit "postpone"), (lit "reduce down", lit "reduce"),
   (lit "refer back", lit "refer"), (lit "repeat again", lit "repeat"),
   (lit "revert back", lit "revert"), (lit "same exact", lit "same"),
   (lit "serious crisis", lit "crisis"), (lit "still remains", lit "remains"),
   (lit "sudden impulse", lit "impulse"), (lit "sum total", lit "total"),
   (lit "true fact", lit "fact"), (lit "unexpected surprise", lit "surprise"),
   (lit "unintentional mistake", lit "mistake"),
   (lit "various different", lit "various"), (lit "very unique", lit "unique")]

def removeRedundancy (text : Txt) : Txt × List Change :=
  let p := runSteps (wbSteps redundantEntries) text
  (p.1,
   if p.2 then
     [Change.mk (lit "Redundancy Removed") CType.style text p.1
       (lit "Eliminated redundant phrases for concise writing")]
   else [])

/-- The weak-verb dictionary of `enforceActiveWriting`, in object order. -/
def weakVerbEntries : List (Txt × Txt) :=
  [(lit "is able to", lit "can"), (lit "are able to", lit "can"),
   (lit "was able to", lit "could"), (lit "were able to", lit "could"),
   (lit "has the ability to", lit "can"), (lit "have the ability to", lit "can"),
   (lit "is capable of", lit "can"), (lit "are capable of", lit "can"),
   (lit "serves to", []), (lit "serves as", lit "is"),
   (lit "functions as", lit "is"), (lit "acts as", lit "is")]

def enforceActiveWriting (text : Txt) : Txt × List Change :=
  let p := runSteps (wbSteps weakVerbEntries) text
  let result := trimT (collapseWs p.1)
  (result,
   if p.2 then
     [Change.mk (lit "Active Writing") CType.style text result
       (lit "Replaced weak verb constructions with strong, active alternatives")]
   else [])

end StyleRules

/-! ## DocumentProcessor (`documentParser.ts`) -/

namespace DocumentProcessor

/-- `splitIntoSentences`: the sentence matches, trimmed, with any sentence of
more than 25 `split(/\s+/)` tokens first run through `splitLongSentences`
(whose appended Change records are those of the clarity engine). -/
def splitIntoSentences (text : Txt) : List Txt × List Change :=
  if text.isEmpty then ([], [])
  else
    (splitSentences text).foldl
      (fun (acc : List Txt × List Change) sentence =>
        let trimmed := trimT sentence
        if 25 < (jsSplitWs trimmed).length then
          let r := ClarityRules.splitLongSentences trimmed
          (acc.1 ++ [r.1], acc.2 ++ r.2)
        else (acc.1 ++ [trimmed], acc.2))
      ([], [])

/-- `processSentence`: the fixed rule pipeline.  The second component is the
list of Change records appended to the clarity engine during the call (in
push order: fixPassiveVoice, simplifyLanguage, separateMultipleIdeas), the
third those appended to the style engine (cleanVocabulary, fixTense,
removeRedundancy, enforceActiveWriting, removeParentheticals). -/
def processSentence (sentence : Txt) : Txt × List Change × List Change :=
  if (trimT sentence).isEmpty then (sentence, [], [])
  else
    let r1 := ClarityRules.fixPassiveVoice sentence
    let r2 := ClarityRules.simplifyLanguage r1.1
    let r3 := StyleRules.cleanVocabulary r2.1
    let r4 := StyleRules.fixTense r3.1
    let r5 := StyleRules.removeRedundancy r4.1
    let r6 := StyleRules.enforceActiveWriting r5.1
    let r7 := StyleRules.removeParentheticals r6.1
    let r8 := ClarityRules.separateMultipleIdeas r7.1
    let finalText := if 1 < r8.1.length then joinSp r8.1 else r7.1
    (finalText, r1.2 ++ r2.2 ++ r8.2, r3.2 ++ r4.2 ++ r5.2 ++ r6.2 ++ r7.2)

/-- One section's pass through the sentence pipeline: the edited text
(sentences split, processed, rejoined with single spaces) together with the
Change records this section's rule calls push into the clarity engine and
into the style engine (the structure engine is never invoked here). -/
def processSectionRaw (content : Txt) : Txt × List Change × List Change :=
  let sp := splitIntoSentences content
  let results := sp.1.map processSentence
  (joinSp (results.map (fun r => r.1)),
   sp.2 ++ (results.map (fun r => r.2.1)).flatten,
   (results.map (fun r => r.2.2)).flatten)

/-- A document with a single section (the section/paragraph/abstract path of
`processDocument`, where the synthetic "Content" section is the only one):
the section's edited text and what its `collectChanges()` drains — the
clarity engine's list followed by the style engine's list. -/
def processSectionContent (content : Txt) : Txt × List Change :=
  let r := processSectionRaw content
  (r.1, r.2.1 ++ r.2.2)

/-- The sections phase of `processDocument` under the JavaScript event
loop.  `sections.map(async section => ...)` runs every callback
synchronously — `splitIntoSentences` and all `processSentence` calls, none
of which contain an inner `await`, so they push all their Changes into the
two shared rule engines — up to the callback's `await Promise.all(...)`;
only after the whole `map` has run do the suspended continuations resume,
in section order.  Hence every section's Changes are already accumulated
when the first section's `collectChanges()` runs: it drains them all (the
clarity engine's list, then the style engine's) into the first section's
attached change list and clears the engines, so every later section's
`collectChanges()` finds them empty and attaches `[]`. -/
def processDocumentSections (contents : List Txt) : List (Txt × List Change) :=
  let raws := contents.map processSectionRaw
  let allClarity := (raws.map (fun r => r.2.1)).flatten
  let allStyle := (raws.map (fun r => r.2.2)).flatten
  match raws with
  | [] => []
  | r0 :: rest => (r0.1, allClarity ++ allStyle) :: rest.map (fun r => (r.1, []))

/-- `countSyllables`: vowel-group transitions on the lowercased word, minus
one for a trailing 'e', floored at 1. -/
def vowelGroupsAux : Bool → Txt → Nat
  | _, [] => 0
  | prevV, c :: cs =>
    let isV := isVowelC c
    (if isV && !prevV then 1 else 0) + vowelGroupsAux isV cs

def vowelGroups (l : Txt) : Nat := vowelGroupsAux false l

def countSyllables (word : Txt) : Nat :=
  let w := lowerT word
  let groups := vowelGroups w
  let c := if endsWithT w (lit "e") then groups - 1 else groups
  if c = 0 then 1 else c

/-- `calculateReadability`: the Flesch Reading Ease score, clamped to
[0, 100]; degenerate inputs (no sentence match or no words) score 0.
Real arithmetic is modelled exactly in ℚ. -/
def calculateReadability (text : Txt) : ℚ :=
  let sentences := splitSentences text
  let words := jsSplitWs text
  let syllables := (words.map countSyllables).sum
  if sentences.length = 0 ∨ words.length = 0 then 0
  else
    max 0 (min 100 ((206835 : ℚ) / 1000 - (1015 : ℚ) / 1000 * ((words.length : ℚ) / (sentences.length : ℚ))
      - (846 : ℚ) / 10 * ((syllables : ℚ) / (words.length : ℚ))))

end DocumentProcessor

/-! ## generateTracking (`src/unnamed/part_002`) -/

namespace Tracking

/-- `countSyllables` of the tracking module: lowercase, strip non-letters,
0 for an emptied word, trailing-'e' decrement only above 1, the '-le'
increment, floored at 1. -/
def countSyllables (word : Txt) : Nat :=
  let w := (lowerT word).filter (fun c => 'a' ≤ c && c ≤ 'z')
  if w.isEmpty then 0
  else
    let c1 := DocumentProcessor.vowelGroups w
    let c2 := if endsWithT w (lit "e") && decide (1 < c1) then c1 - 1 else c1
    let c3 :=
      if endsWithT w (lit "le") && decide (2 < w.length) &&
          !(isVowelC (w.getD (w.length - 3) 'x')) then c2 + 1
      else c2
    max 1 c3

/-- `calculateReadabilityScore` of the tracking module: like the document
processor's, but with empty tokens filtered out of the word list. -/
def calculateReadabilityScore (text : Txt) : ℚ :=
  let sentences := splitSentences text
  let words := (jsSplitWs text).filter (fun w => !w.isEmpty)
  let syllables := (words.map countSyllables).sum
  if sentences.length = 0 ∨ words.length = 0 then 0
  else
    max 0 (min 100 ((206835 : ℚ) / 1000 - (1015 : ℚ) / 1000 * ((words.length : ℚ) / (sentences.length : ℚ))
      - (846 : ℚ) / 10 * ((syllables : ℚ) / (words.length : ℚ))))

end Tracking

/-! ## StructureRules (`structure.rules.ts`) -/

namespace StructureRules

/-- Matcher for the paragraph separator `/\n\n+/`. -/
def paraM (l : Txt) : Option Nat :=
  match l with
  | a :: b :: r =>
    if a = '\n' && b = '\n' then some (2 + (r.takeWhile (fun c => c = '\n')).length)
    else none
  | _ => none

def splitParas (l : Txt) : List Txt := jsSplitAt paraM l

def extractFirstParagraph (text : Txt) : Txt := (splitParas text).headD []

def problemKeywords : List Txt :=
  [lit "problem", lit "issue", lit "challenge", lit "difficult", lit "limitation",
   lit "gap", lit "lacking", lit "insufficient", lit "inadequate", lit "fails"]

def checkFirstParagraphProblem (text : Txt) : Bool :=
  let fp := lowerT (extractFirstParagraph text)
  problemKeywords.any (fun k => containsLit fp k)

def obviousPhrases : List Txt :=
  [lit "computers are everywhere", lit "the internet has changed",
   lit "in today\x27s world", lit "as we all know", lit "it is well known that",
   lit "everyone knows", lit "clearly", lit "obviously", lit "of course"]

def hasObviousStatements (text : Txt) : Bool :=
  obviousPhrases.any (fun p => containsCI text p)

def keyIdeaIndicators : List Txt :=
  [lit "key insight", lit "main idea", lit "core contribution", lit "novel approach",
   lit "our approach", lit "we propose", lit "we present", lit "we introduce",
   lit "this paper presents", lit "this work"]

def identifiesKeyIdea (text : Txt) : Bool :=
  let low := lowerT text
  keyIdeaIndicators.any (fun k => containsLit low k)

def comparisonWords : List Txt :=
  [lit "unlike", lit "compared to", lit "in contrast", lit "whereas", lit "while",
   lit "alternative", lit "existing", lit "previous", lit "traditional", lit "conventional"]

def mentionsAlternatives (text : Txt) : Bool :=
  let low := lowerT text
  comparisonWords.any (fun w => containsLit low w)

def topicStopWords : List Txt :=
  [lit "which", lit "where", lit "while", lit "through", lit "because"]

def extractTopics (text : Txt) : List Txt :=
  let words := jsSplitWs (lowerT text)
  (words.filter (fun w => 5 < w.length && !(topicStopWords.contains w))).take 3

def generateProblemStatement (context : Txt) : Txt :=
  match extractTopics context with
  | t0 :: _ => lit "The challenge of " ++ t0 ++ lit " remains unsolved."
  | [] => lit "This addresses a critical problem in the field."

def contributionText : Txt :=
  lit "\n\nThe main contributions of this work are: First, we provide a novel approach. Second, we demonstrate improved performance. Third, we validate through extensive evaluation.\n\n"

def addContributionsSection (text : Txt) : Txt × List Change :=
  let paragraphs := splitParas text
  if 2 ≤ paragraphs.length then
    let fixed := joinWith (lit "\n\n") (spliceInsert 1 contributionText paragraphs)
    (fixed,
     [Change.mk (lit "Contributions Section") CType.struct text fixed
       (lit "Added explicit contributions section")])
  else (text ++ contributionText, [])

def obviousFixPhrases : List Txt :=
  [lit "In today\x27s world", lit "As we all know", lit "It is well known that",
   lit "Obviously", lit "Clearly"]

/-- Matcher for `/PHRASE[^.]*\./gi`. -/
def obviousM (phrase : Txt) : Matcher := fun _ l =>
  match isPrefixCI phrase l with
  | none => none
  | some r =>
    let mid := r.takeWhile (fun c => !(c = '.'))
    match r.drop mid.length with
    | d :: _ => if d = '.' then some (phrase.length + mid.length + 1, []) else none
    | [] => none

def removeObviousStatements (text : Txt) : Txt × List Change :=
  let p := runSteps (obviousFixPhrases.map (fun ph => scanRepl (obviousM ph))) text
  if p.2 then
    let fixed := trimT (StyleRules.collapseWs p.1)
    (fixed,
     [Change.mk (lit "Remove Obvious Statements") CType.struct text fixed
       (lit "Removed obvious or well-known statements")])
  else (p.1, [])

def autoFixIntroduction (text : Txt) (problemOk hasContrib : Bool) : Txt × List Change :=
  let f1 :=
    if !problemOk then
      match splitParas text with
      | p0 :: rest =>
        let fixed := joinWith (lit "\n\n") ((generateProblemStatement p0 ++ ' ' :: p0) :: rest)
        (fixed,
         [Change.mk (lit "Introduction Structure") CType.struct text fixed
           (lit "Added problem statement to first paragraph")])
      | [] => (text, ([] : List Change))
    else (text, [])
  let f2 := if !hasContrib then addContributionsSection f1.1 else (f1.1, [])
  let f3 := removeObviousStatements f2.1
  (f3.1, f1.2 ++ f2.2 ++ f3.2)

/-- `validateIntroduction`; the accumulator argument models the engine's
`this.changes` list, which the returned `ValidationResult.changes` aliases
in full. -/
def validateIntroduction (acc : List Change) (text : Txt) : ValidationResult × List Change :=
  let problemOk := checkFirstParagraphProblem text
  let hasContrib := containsLit (lowerT text) (lit "contribution")
  let avoidGrand := !hasObviousStatements text
  let silverBullet := identifiesKeyIdea text
  let compares := mentionsAlternatives text
  let issues :=
    (if !problemOk then [lit "Introduction should state the problem in the first paragraph"] else []) ++
    (if !hasContrib then [lit "Introduction should clearly state the contributions"] else []) ++
    (if !avoidGrand then [lit "Remove obvious or well-known statements"] else []) ++
    (if !silverBullet then [lit "Clearly identify the key idea or silver bullet"] else []) ++
    (if !compares then [lit "Compare your approach with alternatives"] else [])
  let fix := autoFixIntroduction text problemOk hasContrib
  let newAcc := acc ++ fix.2
  (ValidationResult.mk (problemOk && hasContrib && avoidGrand && silverBullet && compares)
    (if issues.isEmpty then none else some issues) fix.1 newAcc, newAcc)

def getSynonyms (word : Txt) : List Txt :=
  if word = lit "problem" then
    [lit "problem", lit "challenge", lit "issue", lit "difficulty", lit "limitation"]
  else if word = lit "approach" then
    [lit "approach", lit "method", lit "technique", lit "solution", lit "system"]
  else if word = lit "result" then
    [lit "result", lit "evaluation", lit "performance", lit "improvement", lit "achieve"]
  else [word]

def hasAllComponents (text : Txt) (components : List Txt) : Bool :=
  let low := lowerT text
  components.all (fun comp => (getSynonyms comp).any (fun syn => containsLit low syn))

def abstractTemplate : Txt :=
  lit "This research addresses a significant challenge in the field. A novel approach is proposed that combines innovative techniques. Evaluation demonstrates substantial improvements over existing methods."

def expandSentence : Txt :=
  lit " The comprehensive evaluation validates the effectiveness of the proposed approach through rigorous testing and comparison with state-of-the-art methods."

/-- `restructureAbstract`, returning the fixed text together with the Change
records it appends. -/
def restructureAbstract (text : Txt) (selfContained : Bool) : Txt × List Change :=
  let f1 := scanRepl (litCIM (lit "this paper") (lit "this research")) text
  let f2 := scanRepl (litCIM (lit "we present") (lit "introduces")) f1
  let f3 := scanRepl (litCIM (lit "this work") (lit "the study")) f2
  let p :=
    if selfContained then (f3, ([] : List Change))
    else
      (abstractTemplate,
       [Change.mk (lit "Abstract Structure") CType.struct text abstractTemplate
         (lit "Restructured abstract to include all required components")])
  let ws := jsSplitWs p.1
  if 250 < ws.length then
    let fixed := joinSp (ws.take 250) ++ ['.']
    (fixed,
     p.2 ++ [Change.mk (lit "Abstract Length") CType.struct text fixed
       (lit "Shortened abstract to meet 250-word limit")])
  else if ws.length < 100 then (p.1 ++ expandSentence, p.2)
  else (p.1, p.2)

/-- `validateAbstract`; note that the independence checks use the
case-sensitive `String.includes` while `restructureAbstract` replaces the
same phrases case-insensitively. -/
def validateAbstract (acc : List Change) (text : Txt) : ValidationResult × List Change :=
  let wordCount := (jsSplitWs text).length
  let independent := !(containsLit text (lit "this paper")) &&
    !(containsLit text (lit "we present")) && !(containsLit text (lit "this work"))
  let selfContained := hasAllComponents text [lit "problem", lit "approach", lit "result"]
  let correctLength := decide (100 ≤ wordCount) && decide (wordCount ≤ 250)
  let issues :=
    (if !independent then
      [lit "Abstract should be self-contained without references to \"this paper\""] else []) ++
    (if !selfContained then [lit "Abstract must include problem, approach, and results"] else []) ++
    (if !correctLength then
      [lit "Abstract should be 100-250 words (currently " ++ natTxt wordCount ++ lit " words)"]
     else [])
  let fix := restructureAbstract text selfContained
  let newAcc := acc ++ fix.2
  (ValidationResult.mk (independent && selfContained && correctLength)
    (if issues.isEmpty then none else some issues) fix.1 newAcc, newAcc)

def hasOverviewSection (sections : List SectionM) : Bool :=
  sections.any (fun s => containsLit (lowerT s.title) (lit "overview"))

def findOverviewPositionAux : Nat → List SectionM → Nat
  | _, [] => 1
  | i, s :: rest =>
    if containsLit (lowerT s.title) (lit "introduction") ||
        containsLit (lowerT s.title) (lit "abstract") then i + 1
    else findOverviewPositionAux (i + 1) rest

def findOverviewPosition (sections : List SectionM) : Nat :=
  findOverviewPositionAux 0 sections

def generateOverview (sections : List SectionM) : SectionM :=
  let sectionNames :=
    ((sections.filter (fun s => !(containsLit (lowerT s.title) (lit "abstract")))).map
      (fun s => s.title)).take 5
  let body := joinWith (lit ". ")
    (sectionNames.enum.map (fun p => lit "Section " ++ natTxt (p.1 + 2) ++ lit " covers " ++ lowerT p.2))
  let content := lit "This document is organized as follows. " ++ body ++
    lit ". The document concludes with a summary of key findings and future directions."
  SectionM.mk (lit "Overview") content (some content) []

def insertOverviewSection (acc : List Change) (sections : List SectionM) :
    List SectionM × List Change :=
  if hasOverviewSection sections then (sections, acc)
  else
    (spliceInsert (findOverviewPosition sections) (generateOverview sections) sections,
     acc ++ [Change.mk (lit "Overview Section") CType.struct (lit "No overview section")
       (lit "Added overview section")
       (lit "Inserted overview section for better document structure")])

end StructureRules

/-! ## The structure phase of `editDocument` (`src/unnamed/part_003`)

`editDocument` on a full paper first calls `insertOverviewSection` and then,
for each section whose title contains "introduction" (resp. "abstract"),
validates it with the one shared `StructureRules` instance and appends the
returned `result.changes` — the engine's whole accumulator — to the
section's change list.  The accumulator is threaded explicitly. -/

namespace EditDocument

def structureStep (acc : List Change) (s : SectionM) : List Change × SectionM :=
  let step1 :=
    if containsLit (lowerT s.title) (lit "introduction") then
      let r := StructureRules.validateIntroduction acc (s.edited.getD s.content)
      (r.2, SectionM.mk s.title s.content (some r.1.fixedText) (s.changes ++ r.1.changes))
    else (acc, s)
  let acc1 := step1.1
  let s1 := step1.2
  if containsLit (lowerT s1.title) (lit "abstract") then
    let r := StructureRules.validateAbstract acc1 (s1.edited.getD s1.content)
    (r.2, SectionM.mk s1.title s1.content (some r.1.fixedText) (s1.changes ++ r.1.changes))
  else (acc1, s1)

def structureFold : List Change → List SectionM → List Change × List SectionM
  | acc, [] => (acc, [])
  | acc, s :: rest =>
    let r1 := structureStep acc s
    let r2 := structureFold r1.1 rest
    (r2.1, r1.2 :: r2.2)

def structurePhase (acc : List Change) (sections : List SectionM) :
    List Change × List SectionM :=
  let r := StructureRules.insertOverviewSection acc sections
  structureFold r.2 r.1

end EditDocument

/-! ## Generic lemmas about the scanners -/

/-- A global replace whose pattern matches nowhere is the identity. -/
theorem scanReplF_of_no_match (m : Matcher) :
    ∀ (fuel : Nat) (prev : Option Char) (l : Txt),
      hasMatchF m fuel prev l = false → scanReplF m fuel prev l = l := by
  intro fuel
  induction fuel with
  | zero => intro prev l _; rfl
  | succ f ih =>
    intro prev l h
    cases l with
    | nil => rfl
    | cons c cs =>
      simp only [hasMatchF, Bool.or_eq_false_iff] at h
      obtain ⟨h1, h2⟩ := h
      simp only [scanReplF]
      cases hm : m prev (c :: cs) with
      | some v => rw [hm] at h1; simp at h1
      | none => simp [ih (some c) cs h2]

theorem scanRepl_of_no_match (m : Matcher) (l : Txt) (h : hasMatch m l = false) :
    scanRepl m l = l :=
  scanReplF_of_no_match m l.length none l h

/-- If the folded flag of `runSteps` is still false, no pass changed the
text, so the result is the input. -/
theorem runStep_foldl_no_flag :
    ∀ (steps : List (Txt → Txt)) (p : Txt × Bool),
      (List.foldl runStep p steps).2 = false →
      p.2 = false ∧ (List.foldl runStep p steps).1 = p.1 := by
  intro steps
  induction steps with
  | nil => intro p h; exact ⟨h, rfl⟩
  | cons f fs ih =>
    intro p h
    rw [List.foldl_cons] at h
    obtain ⟨h1, h2⟩ := ih (runStep p f) h
    simp only [runStep, Bool.or_eq_false_iff] at h1
    obtain ⟨hp2, hd⟩ := h1
    have heq : f p.1 = p.1 := by
      have : decide (f p.1 = p.1) = true := by
        revert hd
        cases decide (f p.1 = p.1) <;> simp
      exact of_decide_eq_true this
    refine ⟨hp2, ?_⟩
    rw [List.foldl_cons, h2]
    simp [runStep, heq]

theorem runSteps_no_flag (steps : List (Txt → Txt)) (t : Txt)
    (h : (runSteps steps t).2 = false) : (runSteps steps t).1 = t :=
  (runStep_foldl_no_flag steps (t, false) h).2

/-- `litCIM` fires somewhere iff the needle occurs case-insensitively. -/
theorem hasMatch_litCIM (needle repl hay : Txt) (hne : needle ≠ []) :
    hasMatch (litCIM needle repl) hay = containsCI hay needle := by
  suffices h : ∀ (hay : Txt) (prev : Option Char),
      hasMatchF (litCIM needle repl) hay.length prev hay = containsCI hay needle by
    exact h hay none
  intro hay
  induction hay with
  | nil =>
    intro prev
    simp only [List.length_nil, hasMatchF, containsCI]
    cases needle with
    | nil => exact absurd rfl hne
    | cons a as => rfl
  | cons c cs ih =>
    intro prev
    simp only [List.length_cons, hasMatchF, containsCI, ih (some c)]
    have : (litCIM needle repl prev (c :: cs)).isSome = (isPrefixCI needle (c :: cs)).isSome := by
      unfold litCIM
      cases isPrefixCI needle (c :: cs) <;> simp
    rw [this]

/-! ## Per-rule lemmas -/

theorem ite_cons_nil_eq_nil {α : Type} (b : Bool) (c : α)
    (h : (if b = true then [c] else []) = []) : b = false := by
  cases b
  · rfl
  · simp at h

theorem fixPassiveVoice_no_change (t : Txt)
    (h : (ClarityRules.fixPassiveVoice t).2 = []) :
    (ClarityRules.fixPassiveVoice t).1 = t := by
  have h2 : (if (runSteps ClarityRules.passiveSteps t).2 = true then
      [Change.mk (lit "Passive Voice") CType.clarity t (runSteps ClarityRules.passiveSteps t).1
        (lit "Converted passive voice to active voice for clearer, more direct writing")]
    else []) = [] := h
  exact runSteps_no_flag ClarityRules.passiveSteps t (ite_cons_nil_eq_nil _ _ h2)

theorem simplifyLanguage_no_change (t : Txt)
    (h : (ClarityRules.simplifyLanguage t).2 = []) :
    (ClarityRules.simplifyLanguage t).1 = t := by
  simp only [ClarityRules.simplifyLanguage] at h ⊢
  exact runSteps_no_flag (wbSteps ClarityRules.simplifyEntries) t (ite_cons_nil_eq_nil _ _ h)

theorem cleanVocabulary_no_change (t : Txt)
    (h : (StyleRules.cleanVocabulary t).2 = []) :
    (StyleRules.cleanVocabulary t).1 = StyleRules.cleanNormalize t := by
  simp only [StyleRules.cleanVocabulary] at h ⊢
  exact congrArg StyleRules.cleanNormalize
    (runSteps_no_flag (StyleRules.forbiddenTerms.map (fun w => scanRepl (wbMatcher w []))) t
      (ite_cons_nil_eq_nil _ _ h))

theorem fixTense_no_change (t : Txt)
    (h : (StyleRules.fixTense t).2 = []) :
    (StyleRules.fixTense t).1 = t := by
  have h2 : (if (runSteps StyleRules.tenseSteps t).2 = true then
      [Change.mk (lit "Tense Correction") CType.style t (runSteps StyleRules.tenseSteps t).1
        (lit "Converted future tense to present tense for academic writing")]
    else []) = [] := h
  exact runSteps_no_flag StyleRules.tenseSteps t (ite_cons_nil_eq_nil _ _ h2)

theorem removeRedundancy_no_change (t : Txt)
    (h : (StyleRules.removeRedundancy t).2 = []) :
    (StyleRules.removeRedundancy t).1 = t := by
  simp only [StyleRules.removeRedundancy] at h ⊢
  exact runSteps_no_flag (wbSteps StyleRules.redundantEntries) t (ite_cons_nil_eq_nil _ _ h)

theorem enforceActiveWriting_no_change (t : Txt)
    (h : (StyleRules.enforceActiveWriting t).2 = []) :
    (StyleRules.enforceActiveWriting t).1 = trimT (StyleRules.collapseWs t) := by
  simp only [StyleRules.enforceActiveWriting] at h ⊢
  exact congrArg (fun x => trimT (StyleRules.collapseWs x))
    (runSteps_no_flag (wbSteps StyleRules.weakVerbEntries) t (ite_cons_nil_eq_nil _ _ h))

theorem removeParentheticals_no_change (t : Txt)
    (h : (StyleRules.removeParentheticals t).2 = []) :
    (StyleRules.removeParentheticals t).1 = StyleRules.parenNormalize t := by
  simp only [StyleRules.removeParentheticals] at h ⊢
  have hflag := ite_cons_nil_eq_nil _ _ h
  rw [Bool.or_eq_false_iff] at hflag
  obtain ⟨h1, h2⟩ := hflag
  have hms : StyleRules.parenMatches t = [] := by
    cases hmm : StyleRules.parenMatches t
    · rfl
    · rw [hmm] at h1
      simp at h1
  rw [hms] at h2
  simp only [List.foldl_nil] at h2
  have hr2 : scanRepl StyleRules.footnoteM t = t := by
    have : decide (scanRepl StyleRules.footnoteM t = t) = true := by
      revert h2
      cases decide (scanRepl StyleRules.footnoteM t = t) <;> simp
    exact of_decide_eq_true this
  show StyleRules.parenNormalize (scanRepl StyleRules.footnoteM
    (List.foldl (fun cur m => StyleRules.firstReplace m (StyleRules.parenRepl m) cur) t
      (StyleRules.parenMatches t))) = StyleRules.parenNormalize t
  rw [hms]
  simp only [List.foldl_nil]
  rw [hr2]

theorem separateMultipleIdeas_no_change (t : Txt)
    (h : (ClarityRules.separateMultipleIdeas t).2 = []) :
    (ClarityRules.separateMultipleIdeas t).1 = [t] := by
  simp only [ClarityRules.separateMultipleIdeas] at h ⊢
  by_cases hc : ClarityRules.countClauses t ≤ 2
  · rw [if_pos hc]
  · rw [if_neg hc] at h ⊢
    by_cases hp : 1 < ((jsSplitCap ClarityRules.connMatcher t).filter
        (fun part => !part.isEmpty && !(ClarityRules.connectorWords.contains (lowerT part)))).length
    · rw [if_pos hp] at h
      simp at h
    · rw [if_neg hp]

/-- The per-call Change list of every rule has at most one element. -/
theorem rule_changes_le_one (t : Txt) :
    (ClarityRules.fixPassiveVoice t).2.length ≤ 1 ∧
    (ClarityRules.simplifyLanguage t).2.length ≤ 1 ∧
    (StyleRules.cleanVocabulary t).2.length ≤ 1 ∧
    (StyleRules.fixTense t).2.length ≤ 1 ∧
    (StyleRules.removeRedundancy t).2.length ≤ 1 ∧
    (StyleRules.enforceActiveWriting t).2.length ≤ 1 ∧
    (StyleRules.removeParentheticals t).2.length ≤ 1 ∧
    (ClarityRules.separateMultipleIdeas t).2.length ≤ 1 := by
  refine ⟨?_, ?_, ?_, ?_, ?_, ?_, ?_, ?_⟩
  · simp only [ClarityRules.fixPassiveVoice]
    split <;> simp
  · simp only [ClarityRules.simplifyLanguage]
    split <;> simp
  · simp only [StyleRules.cleanVocabulary]
    split <;> simp
  · simp only [StyleRules.fixTense]
    split <;> simp
  · simp only [StyleRules.removeRedundancy]
    split <;> simp
  · simp only [StyleRules.enforceActiveWriting]
    split <;> simp
  · simp only [StyleRules.removeParentheticals]
    split <;> simp
  · simp only [ClarityRules.separateMultipleIdeas]
    split
    · simp
    · split <;> simp

/-- Whenever the `intelligentSplit` loop selects a split, its guard has
checked that both raw parts have at least five `split(/\s+/)` tokens. -/
theorem findSplit_parts_ge5 :
    ∀ (cs : List ClarityRules.Conj) (s p1 p2 : Txt),
      ClarityRules.findSplit cs s = some (p1, p2) →
      5 ≤ (jsSplitWs p1).length ∧ 5 ≤ (jsSplitWs p2).length := by
  intro cs
  induction cs with
  | nil =>
    intro s p1 p2 h
    simp [ClarityRules.findSplit] at h
  | cons c rest ih =>
    intro s p1 p2 h
    rw [ClarityRules.findSplit] at h
    split at h
    · split at h
      · split at h
        · rename_i hguard
          have hp := Option.some.inj h
          rw [Prod.mk.injEq] at hp
          obtain ⟨hp1, hp2⟩ := hp
          subst hp1
          subst hp2
          exact hguard
        · exact ih s p1 p2 h
      · exact ih s p1 p2 h
    · exact ih s p1 p2 h

/-- `splitSentF` on a text with no terminal punctuation: no sentence match. -/
theorem splitSentF_no_terminal (fuel : Nat) (l : Txt)
    (h : ∀ c ∈ l, isTerminalC c = false) : splitSentF fuel l = [] := by
  cases fuel with
  | zero => rfl
  | succ f =>
    cases l with
    | nil => rfl
    | cons c cs =>
      have hc : isTerminalC c = false := h c (List.mem_cons_self c cs)
      rw [splitSentF]
      rw [hc]
      simp only [Bool.false_eq_true, if_false]
      have hdrop : (c :: cs).dropWhile (fun x => !isTerminalC x) = [] := by
        rw [List.dropWhile_eq_nil_iff]
        intro x hx
        simp [h x hx]
      rw [hdrop]

/-! ## Concrete inputs used by the claims -/

def repTok : Nat → Txt
  | 0 => []
  | n + 1 => ' ' :: 'x' :: repTok n

def exC1 : Txt :=
  lit "The system was designed by our team. It should be noted that the results will be evaluated."

def exC1s1 : Txt := lit "The system was designed by our team."

def exC1s2 : Txt := lit "It should be noted that the results will be evaluated."

def exC6long : Txt := lit "a b c d , and e f g h i j k l m n o p q r s t u v w x y."

def secDummy : SectionM := SectionM.mk [] [] none []

def chDummy : Change := Change.mk [] CType.clarity [] [] []

def introSecC3 : SectionM := SectionM.mk (lit "Introduction") (lit "We propose things.") none []

def exC3secA : Txt := lit "We utilize tools."

def exC3secB : Txt := lit "It should be noted that stuff works."

def absSecC3 : SectionM := SectionM.mk (lit "Abstract") (lit "Bad.") none []

def abs300 : Txt := lit "problem approach result" ++ repTok 297

def abs300bad : Txt := lit "alpha beta gamma" ++ repTok 297

def abs100 : Txt :=
  lit "This paper addresses the problem of slow builds. The method gives a result." ++ repTok 87

/-! ## The claims -/

/-- C1 (counterexample): on the end-to-end input, `fixPassiveVoice` does not
produce "Our team designed the system." for the first sentence (the
rewrite keeps the dangling article "The", loses the article of "the system"
and strips the participle to "design"), and `fixTense` turns
"will be evaluated" into "is evaluated", not "are evaluated" (the bare
`will\s+(\w+)` pattern captures "be" and maps it to "is"). -/
theorem claim_C1_counterexample :
    (ClarityRules.fixPassiveVoice exC1s1).1 ≠ lit "Our team designed the system." ∧
    (StyleRules.fixTense (lit " the results will be evaluated.")).1 ≠
      lit " the results are evaluated." := by
  constructor
  · decide
  · decide

/-- C1 (amended): on the end-to-end input the per-sentence pipeline converts
the first sentence to "The our team design system.", `cleanVocabulary`
removes "It should be noted that" from the second sentence leaving a leading
space, `fixTense` converts "will be" to "is" there, and exactly 3 Change
records are produced, with categories clarity, vocabulary and style. -/
theorem claim_C1_amended :
    (ClarityRules.fixPassiveVoice exC1s1).1 = lit "The our team design system." ∧
    (StyleRules.cleanVocabulary exC1s2).1 = lit " the results will be evaluated." ∧
    (StyleRules.fixTense (lit " the results will be evaluated.")).1 =
      lit " the results is evaluated." ∧
    (DocumentProcessor.processSectionContent exC1).1 =
      lit "The our team design system. the results is evaluated." ∧
    (DocumentProcessor.processSectionContent exC1).2.map Change.ctype =
      [CType.clarity, CType.vocabulary, CType.style] := by
  refine ⟨by decide, by decide, by decide, by decide, by decide⟩

/-- C2 (counterexample): `enforceActiveWriting` on " x" returns the
different text "x" (its unconditional whitespace normalisation and trim)
while appending no Change record, refuting the claimed equivalence. -/
theorem claim_C2_counterexample :
    (StyleRules.enforceActiveWriting (lit " x")).1 ≠ lit " x" ∧
    (StyleRules.enforceActiveWriting (lit " x")).2 = [] := by
  constructor
  · decide
  · decide

/-- C2 (amended): every rule operation appends at most one Change record per
call, and when it appends none its pattern/dictionary phase did not fire:
the result equals the input for fixPassiveVoice, simplifyLanguage, fixTense
and removeRedundancy, equals `[input]` for separateMultipleIdeas, and equals
the pure whitespace/punctuation normalisation of the input for
cleanVocabulary, enforceActiveWriting and removeParentheticals — which can
therefore return altered text without recording any Change. -/
theorem claim_C2_amended (t : Txt) :
    ((ClarityRules.fixPassiveVoice t).2.length ≤ 1 ∧
      ((ClarityRules.fixPassiveVoice t).2 = [] → (ClarityRules.fixPassiveVoice t).1 = t)) ∧
    ((ClarityRules.simplifyLanguage t).2.length ≤ 1 ∧
      ((ClarityRules.simplifyLanguage t).2 = [] → (ClarityRules.simplifyLanguage t).1 = t)) ∧
    ((StyleRules.cleanVocabulary t).2.length ≤ 1 ∧
      ((StyleRules.cleanVocabulary t).2 = [] →
        (StyleRules.cleanVocabulary t).1 = StyleRules.cleanNormalize t)) ∧
    ((StyleRules.fixTense t).2.length ≤ 1 ∧
      ((StyleRules.fixTense t).2 = [] → (StyleRules.fixTense t).1 = t)) ∧
    ((StyleRules.removeRedundancy t).2.length ≤ 1 ∧
      ((StyleRules.removeRedundancy t).2 = [] → (StyleRules.removeRedundancy t).1 = t)) ∧
    ((StyleRules.enforceActiveWriting t).2.length ≤ 1 ∧
      ((StyleRules.enforceActiveWriting t).2 = [] →
        (StyleRules.enforceActiveWriting t).1 = trimT (StyleRules.collapseWs t))) ∧
    ((StyleRules.removeParentheticals t).2.length ≤ 1 ∧
      ((StyleRules.removeParentheticals t).2 = [] →
        (StyleRules.removeParentheticals t).1 = StyleRules.parenNormalize t)) ∧
    ((ClarityRules.separateMultipleIdeas t).2.length ≤ 1 ∧
      ((ClarityRules.separateMultipleIdeas t).2 = [] →
        (ClarityRules.separateMultipleIdeas t).1 = [t])) := by
  obtain ⟨a1, a2, a3, a4, a5, a6, a7, a8⟩ := rule_changes_le_one t
  exact ⟨⟨a1, fixPassiveVoice_no_change t⟩, ⟨a2, simplifyLanguage_no_change t⟩,
    ⟨a3, cleanVocabulary_no_change t⟩, ⟨a4, fixTense_no_change t⟩,
    ⟨a5, removeRedundancy_no_change t⟩, ⟨a6, enforceActiveWriting_no_change t⟩,
    ⟨a7, removeParentheticals_no_change t⟩, ⟨a8, separateMultipleIdeas_no_change t⟩⟩

/-- C2 (witness): the amended theorem applied to the sentence "hi.", on
which fixTense records no Change and returns its input. -/
theorem claim_C2_witness :
    (StyleRules.fixTense (lit "hi.")).2 = [] ∧ (StyleRules.fixTense (lit "hi.")).1 = lit "hi." :=
  ⟨by decide, ((claim_C2_amended (lit "hi.")).2.2.2.1).2 (by decide)⟩

/-- C4: a section whose content has no terminal punctuation produces no
sentence match, so its edited text is the empty string (the content is
silently dropped); text after the last terminal punctuation is likewise
dropped, as the concrete second conjunct shows. -/
theorem claim_C4_content_dropped :
    (∀ content : Txt, (∀ c ∈ content, isTerminalC c = false) →
      (DocumentProcessor.processSectionContent content).1 = []) ∧
    (DocumentProcessor.processSectionContent (lit "Hello there world. trailing bit")).1 =
      lit "Hello there world." := by
  constructor
  · intro content h
    have hs : splitSentences content = [] := splitSentF_no_terminal content.length content h
    simp only [DocumentProcessor.processSectionContent, DocumentProcessor.processSectionRaw,
      DocumentProcessor.splitIntoSentences]
    by_cases he : content.isEmpty
    · simp [he, joinSp, joinWith]
    · simp [he, hs, joinSp, joinWith]
  · decide

/-- C4 (witness): a concrete terminal-free content is edited to "". -/
theorem claim_C4_witness :
    (DocumentProcessor.processSectionContent (lit "no terminal punctuation here")).1 = [] :=
  claim_C4_content_dropped.1 (lit "no terminal punctuation here") (by decide)

/-- C6 (counterexample): the 27-word sentence `exC6long` is split, records
one Long Sentence change, and its first fragment "A b c d." has only 4
words (the guard counted the empty token created by the trailing space of
the raw part "a b c d "); moreover on " a." no split point exists but the
output "a." differs from the input (sentences are trimmed and rejoined). -/
theorem claim_C6_counterexample :
    25 < (jsSplitWs exC6long).length ∧
    (ClarityRules.splitLongSentences exC6long).2.length = 1 ∧
    (ClarityRules.splitLongSentences exC6long).1 =
      lit "A b c d. E f g h i j k l m n o p q r s t u v w x y." ∧
    ClarityRules.intelligentSplit exC6long =
      [lit "A b c d.", lit "E f g h i j k l m n o p q r s t u v w x y."] ∧
    ((jsSplitWs (lit "A b c d.")).filter (fun w => !w.isEmpty)).length = 4 ∧
    (ClarityRules.splitLongSentences (lit " a.")).2 = [] ∧
    (ClarityRules.splitLongSentences (lit " a.")).1 ≠ lit " a." := by
  refine ⟨by decide, by decide, by decide, by decide, by decide, by decide, by decide⟩

/-- C6 (amended): when the split loop selects a split, both raw halves have
at least 5 `split(/\s+/)` tokens (a count that may include one empty token
from whitespace adjacent to the split point, so a trimmed fragment can have
only 4 words); when no qualifying split point exists, `intelligentSplit`
returns the sentence unsplit (though `splitLongSentences` still trims
sentences and rejoins them with single spaces). -/
theorem claim_C6_amended (s : Txt) :
    (∀ p1 p2 : Txt, ClarityRules.findSplit ClarityRules.conjList s = some (p1, p2) →
      5 ≤ (jsSplitWs p1).length ∧ 5 ≤ (jsSplitWs p2).length) ∧
    (ClarityRules.findSplit ClarityRules.conjList s = none →
      ClarityRules.intelligentSplit s = [s]) := by
  constructor
  · intro p1 p2 h
    exact findSplit_parts_ge5 ClarityRules.conjList s p1 p2 h
  · intro h
    simp [ClarityRules.intelligentSplit, h]

/-- C6 (witness): the amended theorem applied to `exC6long`, whose selected
split has raw halves "a b c d " and "e f g h i j k l m n o p q r s t u v w x y.". -/
theorem claim_C6_witness :
    5 ≤ (jsSplitWs (lit "a b c d ")).length ∧
    5 ≤ (jsSplitWs (lit "e f g h i j k l m n o p q r s t u v w x y.")).length :=
  (claim_C6_amended exC6long).1 (lit "a b c d ")
    (lit "e f g h i j k l m n o p q r s t u v w x y.") (by decide)

/-- C7: a sentence on which none of the three passive patterns matches is
returned unchanged by `fixPassiveVoice`, with no Change recorded. -/
theorem claim_C7_no_passive_no_change (s : Txt)
    (h1 : hasMatch ClarityRules.passive1M s = false)
    (h2 : hasMatch ClarityRules.passive2M s = false)
    (h3 : hasMatch ClarityRules.passive3M s = false) :
    ClarityRules.fixPassiveVoice s = (s, []) := by
  have e1 : scanRepl ClarityRules.passive1M s = s := scanRepl_of_no_match _ _ h1
  have e2 : scanRepl ClarityRules.passive2M s = s := scanRepl_of_no_match _ _ h2
  have e3 : scanRepl ClarityRules.passive3M s = s := scanRepl_of_no_match _ _ h3
  simp only [ClarityRules.fixPassiveVoice, ClarityRules.passiveSteps, runSteps,
    List.foldl_cons, List.foldl_nil, runStep]
  simp [e1, e2, e3]

/-- C7 (witness): the theorem applied to a concrete active sentence. -/
theorem claim_C7_witness :
    ClarityRules.fixPassiveVoice (lit "The team designed the system.") =
      (lit "The team designed the system.", []) :=
  claim_C7_no_passive_no_change (lit "The team designed the system.")
    (by decide) (by decide) (by decide)

/-- C3 (counterexample): the claim fails in both code paths.  In
`processDocument` on a two-section paper, the Change produced while editing
the second section (its "Forbidden Vocabulary" removal — the first section
contains no forbidden term) appears in the FIRST section's attached change
list, and the second section's own list is empty: the async section
callbacks all push their Changes before the first `collectChanges()` runs.
In `editDocument`'s structure phase, the Change produced while fixing the
Introduction ("Introduction Structure") also appears in the Abstract
section's attached list: the shared accumulator is never reset. -/
theorem claim_C3_counterexample :
    (∃ c, c ∈ ((DocumentProcessor.processDocumentSections [exC3secA, exC3secB]).headD
        ([], [])).2 ∧ c.rule = lit "Forbidden Vocabulary") ∧
    ((DocumentProcessor.processDocumentSections [exC3secA, exC3secB]).getD 1 ([], [])).2 = [] ∧
    (∃ c, c ∈ ((EditDocument.structurePhase [] [introSecC3, absSecC3]).2.getD 0 secDummy).changes ∧
      c ∈ ((EditDocument.structurePhase [] [introSecC3, absSecC3]).2.getD 2 secDummy).changes ∧
      c.rule = lit "Introduction Structure") := by
  refine ⟨by decide, by decide, by decide⟩

/-- C3 (amended): the per-section ownership invariant fails in both code
paths.  In `processDocument` every section's rule calls push into the shared
engines before any `collectChanges()` runs, so (i) any Change a later
section produces lands in the first section's attached list, (ii) every
section after the first attaches the empty list, and (iii) the flattened
document-level list still holds each section's Changes exactly once (all
clarity-engine Changes in section order, then all style-engine Changes).
In `editDocument`'s structure phase the accumulator only grows, and (iv) a
section validated as an Abstract gets the engine's entire accumulator —
the Changes of every earlier section and of the Overview insertion
included — appended to its change list, not just its own delta. -/
theorem claim_C3_not_drained :
    (∀ (c0 c1 : Txt) (rest : List Txt) (ch : Change),
      ch ∈ (DocumentProcessor.processSectionContent c1).2 →
      ch ∈ ((DocumentProcessor.processDocumentSections (c0 :: c1 :: rest)).headD ([], [])).2) ∧
    (∀ (contents : List Txt) (p : Txt × List Change),
      p ∈ (DocumentProcessor.processDocumentSections contents).drop 1 → p.2 = []) ∧
    (∀ contents : List Txt,
      ((DocumentProcessor.processDocumentSections contents).map (fun p => p.2)).flatten =
        (contents.map (fun c => (DocumentProcessor.processSectionRaw c).2.1)).flatten ++
        (contents.map (fun c => (DocumentProcessor.processSectionRaw c).2.2)).flatten) ∧
    (∀ (acc : List Change) (s : SectionM),
      containsLit (lowerT s.title) (lit "introduction") = false →
      containsLit (lowerT s.title) (lit "abstract") = true →
      ∃ d, (EditDocument.structureStep acc s).1 = acc ++ d ∧
        (EditDocument.structureStep acc s).2.changes = s.changes ++ (acc ++ d)) := by
  refine ⟨?_, ?_, ?_, ?_⟩
  · intro c0 c1 rest ch hch
    simp only [DocumentProcessor.processSectionContent] at hch
    simp only [DocumentProcessor.processDocumentSections, List.map_cons, List.headD_cons]
    rcases List.mem_append.mp hch with hc | hc
    · refine List.mem_append_left _ (List.mem_flatten.mpr
        ⟨(DocumentProcessor.processSectionRaw c1).2.1, ?_, hc⟩)
      simp
    · refine List.mem_append_right _ (List.mem_flatten.mpr
        ⟨(DocumentProcessor.processSectionRaw c1).2.2, ?_, hc⟩)
      simp
  · intro contents p hp
    cases contents with
    | nil => simp [DocumentProcessor.processDocumentSections] at hp
    | cons c cs =>
      simp only [DocumentProcessor.processDocumentSections, List.map_cons,
        List.drop_succ_cons, List.drop_zero] at hp
      obtain ⟨r, _, hpr⟩ := List.mem_map.mp hp
      rw [← hpr]
  · intro contents
    cases contents with
    | nil => rfl
    | cons c cs =>
      simp only [DocumentProcessor.processDocumentSections, List.map_cons, List.flatten_cons]
      have hnil : ((((cs.map DocumentProcessor.processSectionRaw).map
          (fun r => ((r.1, ([] : List Change)) : Txt × List Change))).map
            (fun p => p.2)).flatten : List Change) = [] := by
        rw [List.flatten_eq_nil_iff]
        intro x hx
        simp only [List.map_map, List.mem_map] at hx
        obtain ⟨r, _, hr⟩ := hx
        exact hr.symm
      rw [hnil]
      simp [List.map_map, Function.comp_def]
  · intro acc s h1 h2
    refine ⟨(StructureRules.restructureAbstract (s.edited.getD s.content)
        (StructureRules.hasAllComponents (s.edited.getD s.content)
          [lit "problem", lit "approach", lit "result"])).2, ?_, ?_⟩ <;>
      simp [EditDocument.structureStep, StructureRules.validateAbstract, h1, h2]

/-- C3 (witness): the amended theorem applied to the concrete two-section
paper (the second section's vocabulary Change lands in the first section's
list) and to the Abstract section with a nonempty prior accumulator. -/
theorem claim_C3_witness :
    ((DocumentProcessor.processSectionContent exC3secB).2.getD 0 chDummy ∈
      ((DocumentProcessor.processDocumentSections [exC3secA, exC3secB]).headD ([], [])).2) ∧
    (∃ d, (EditDocument.structureStep [chDummy] absSecC3).1 = [chDummy] ++ d ∧
      (EditDocument.structureStep [chDummy] absSecC3).2.changes =
        absSecC3.changes ++ ([chDummy] ++ d)) :=
  ⟨claim_C3_not_drained.1 exC3secA exC3secB []
      ((DocumentProcessor.processSectionContent exC3secB).2.getD 0 chDummy) (by decide),
   claim_C3_not_drained.2.2.2 [chDummy] absSecC3 (by decide) (by decide)⟩

/-- C5 (counterexample): a 300-word abstract that lacks the
problem/approach/result synonyms is not truncated to its first 250 words:
`restructureAbstract` first replaces it wholesale with the synthesised
template (then expands it), so the claim fails as stated for every
300-word abstract. -/
theorem claim_C5_counterexample :
    (jsSplitWs abs300bad).length = 300 ∧
    (StructureRules.validateAbstract [] abs300bad).1.fixedText ≠
      joinSp ((jsSplitWs abs300bad).take 250) ++ ['.'] := by
  constructor
  · decide
  · decide

/-- C5 (amended): for an abstract of exactly 300 whitespace-separated words
that contains the problem/approach/result synonym sets and no
case-insensitive occurrence of "this paper", "we present" or "this work",
the returned fixedText is exactly the first 250 words joined by single
spaces followed by a period. -/
theorem claim_C5_truncation (t : Txt)
    (h1 : containsCI t (lit "this paper") = false)
    (h2 : containsCI t (lit "we present") = false)
    (h3 : containsCI t (lit "this work") = false)
    (h4 : StructureRules.hasAllComponents t [lit "problem", lit "approach", lit "result"] = true)
    (h5 : (jsSplitWs t).length = 300) :
    (StructureRules.validateAbstract [] t).1.fixedText =
      joinSp ((jsSplitWs t).take 250) ++ ['.'] := by
  have e1 : scanRepl (litCIM (lit "this paper") (lit "this research")) t = t :=
    scanRepl_of_no_match _ _ (by rw [hasMatch_litCIM _ _ _ (by decide)]; exact h1)
  have e2 : scanRepl (litCIM (lit "we present") (lit "introduces")) t = t :=
    scanRepl_of_no_match _ _ (by rw [hasMatch_litCIM _ _ _ (by decide)]; exact h2)
  have e3 : scanRepl (litCIM (lit "this work") (lit "the study")) t = t :=
    scanRepl_of_no_match _ _ (by rw [hasMatch_litCIM _ _ _ (by decide)]; exact h3)
  simp only [StructureRules.validateAbstract, StructureRules.restructureAbstract]
  rw [e1, e2, e3, h4]
  simp only [if_true]
  rw [h5]
  norm_num

/-- C5 (witness): the amended theorem applied to a concrete 300-word
self-contained abstract. -/
theorem claim_C5_witness :
    (jsSplitWs abs300).length = 300 ∧
    (StructureRules.validateAbstract [] abs300).1.fixedText =
      joinSp ((jsSplitWs abs300).take 250) ++ ['.'] :=
  ⟨by decide,
   claim_C5_truncation abs300 (by decide) (by decide) (by decide) (by decide) (by decide)⟩

/-- An inserted Overview section makes `hasOverviewSection` true. -/
theorem hasOverview_after_insert (sections : List SectionM) (idx : Nat) :
    StructureRules.hasOverviewSection
      (spliceInsert idx (StructureRules.generateOverview sections) sections) = true := by
  unfold StructureRules.hasOverviewSection spliceInsert
  rw [List.any_eq_true]
  refine ⟨StructureRules.generateOverview sections, ?_, ?_⟩
  · exact List.mem_append_right _ (List.mem_cons_self _ _)
  · show containsLit (lowerT (StructureRules.generateOverview sections).title) (lit "overview") = true
    have ht : (StructureRules.generateOverview sections).title = lit "Overview" := rfl
    rw [ht]
    decide

/-- C8: if some section title already contains "overview" (case-insensitively),
`insertOverviewSection` returns the list and accumulator unchanged; in
particular the operation is idempotent: applying it to its own output is the
identity. -/
theorem claim_C8_insertOverview_idempotent (sections : List SectionM) (acc : List Change) :
    (StructureRules.hasOverviewSection sections = true →
      StructureRules.insertOverviewSection acc sections = (sections, acc)) ∧
    StructureRules.insertOverviewSection
        (StructureRules.insertOverviewSection acc sections).2
        (StructureRules.insertOverviewSection acc sections).1 =
      ((StructureRules.insertOverviewSection acc sections).1,
       (StructureRules.insertOverviewSection acc sections).2) := by
  have base : ∀ (a : List Change) (ss : List SectionM),
      StructureRules.hasOverviewSection ss = true →
      StructureRules.insertOverviewSection a ss = (ss, a) := by
    intro a ss h
    simp [StructureRules.insertOverviewSection, h]
  constructor
  · exact base acc sections
  · by_cases h : StructureRules.hasOverviewSection sections = true
    · rw [base acc sections h]
      exact base acc sections h
    · have hfalse : StructureRules.hasOverviewSection sections = false := by
        cases hh : StructureRules.hasOverviewSection sections
        · rfl
        · exact absurd hh h
      have hins : StructureRules.insertOverviewSection acc sections =
          (spliceInsert (StructureRules.findOverviewPosition sections)
            (StructureRules.generateOverview sections) sections,
           acc ++ [Change.mk (lit "Overview Section") CType.struct (lit "No overview section")
             (lit "Added overview section")
             (lit "Inserted overview section for better document structure")]) := by
        simp [StructureRules.insertOverviewSection, hfalse]
      rw [hins]
      exact base _ _ (hasOverview_after_insert sections _)

/-- C8 (witness): on a list that already holds a "System Overview" section,
insertion is the identity. -/
theorem claim_C8_witness :
    StructureRules.insertOverviewSection []
        [SectionM.mk (lit "System Overview") (lit "x") none []] =
      ([SectionM.mk (lit "System Overview") (lit "x") none []], []) :=
  (claim_C8_insertOverview_idempotent [SectionM.mk (lit "System Overview") (lit "x") none []] []).1
    (by decide)

/-- The clamp `max 0 (min 100 q)` always lands in [0, 100]. -/
theorem clamp_bounds (q : ℚ) : 0 ≤ max 0 (min 100 q) ∧ max 0 (min 100 q) ≤ 100 :=
  ⟨le_max_left _ _, max_le (by norm_num) (min_le_left _ _)⟩

/-- C9: both readability computations (the document processor's and the
tracking module's) always return a score in [0, 100], and return 0 whenever
the text has no sentence match (in particular for empty text and text
without terminal punctuation). -/
theorem claim_C9_readability_clamped (t : Txt) :
    (0 ≤ DocumentProcessor.calculateReadability t ∧
      DocumentProcessor.calculateReadability t ≤ 100 ∧
      (splitSentences t = [] → DocumentProcessor.calculateReadability t = 0)) ∧
    (0 ≤ Tracking.calculateReadabilityScore t ∧
      Tracking.calculateReadabilityScore t ≤ 100 ∧
      (splitSentences t = [] → Tracking.calculateReadabilityScore t = 0)) := by
  constructor
  · refine ⟨?_, ?_, ?_⟩
    · simp only [DocumentProcessor.calculateReadability]
      split
      · norm_num
      · exact (clamp_bounds _).1
    · simp only [DocumentProcessor.calculateReadability]
      split
      · norm_num
      · exact (clamp_bounds _).2
    · intro h
      simp [DocumentProcessor.calculateReadability, h]
  · refine ⟨?_, ?_, ?_⟩
    · simp only [Tracking.calculateReadabilityScore]
      split
      · norm_num
      · exact (clamp_bounds _).1
    · simp only [Tracking.calculateReadabilityScore]
      split
      · norm_num
      · exact (clamp_bounds _).2
    · intro h
      simp [Tracking.calculateReadabilityScore, h]

/-- C9 (witness): degenerate text without terminal punctuation scores 0 in
both computations. -/
theorem claim_C9_witness :
    DocumentProcessor.calculateReadability (lit "zzz") = 0 ∧
    Tracking.calculateReadabilityScore (lit "zzz") = 0 :=
  ⟨(claim_C9_readability_clamped (lit "zzz")).1.2.2 (by decide),
   (claim_C9_readability_clamped (lit "zzz")).2.2.2 (by decide)⟩

/-- C10: a 100-word abstract containing "This paper" (capitalised) but none
of the lowercase phrases "this paper", "we present", "this work" passes the
case-sensitive independence check and validates fully (`valid = true`), yet
the returned fixedText differs from the input because `restructureAbstract`
replaces the phrase case-insensitively. -/
theorem claim_C10_case_mismatch :
    containsLit abs100 (lit "This paper") = true ∧
    containsLit abs100 (lit "this paper") = false ∧
    containsLit abs100 (lit "we present") = false ∧
    containsLit abs100 (lit "this work") = false ∧
    (StructureRules.validateAbstract [] abs100).1.valid = true ∧
    (StructureRules.validateAbstract [] abs100).1.fixedText ≠ abs100 := by
  refine ⟨by decide, by decide, by decide, by decide, by decide, by decide⟩
